import Mathlib

/-!
Shallow embedding of the core logic of the ez-image responsive image
component: breakpoint selection (`handleResize`), descriptor building
(`getWidths`, `createSrcSet`) and the preload/preconnect hint effect,
with theorems settling the specified properties.
-/

namespace EzImage

/-- A breakpoint, mirroring `Size` from `types.ts`: a `{width, height}` pair.
Widths and heights are machine numbers used only non-negatively; modelled
as `Nat`. -/
structure Size where
  width : Nat
  height : Nat
deriving DecidableEq, Repr

/-- The build mode read from `process.env.NODE_ENV` in the source.
The code only tests for `"production"`; every other value behaves as
development. -/
inductive BuildMode where
  | development
  | production
deriving DecidableEq, Repr

/-- The `trueSrc` computation at the head of `createSrcSet`
(`src/unnamed/part_000`, lines 134–144):

```js
let trueSrc = src;
if (!origin) {
  trueSrc = "//wsrv.nl?url=" + trueSrc;
} else if (process.env.NODE_ENV === "production") {
  const srcWithOrigin = src.startsWith("/") ? origin + src : origin + "/" + src;
  trueSrc = "//wsrv.nl?url=" + srcWithOrigin;
}
```

`origin` has TypeScript type `string | undefined`; the guard `!origin` is
JavaScript truthiness, so it also takes the no-origin branch when `origin`
is the empty string. -/
def trueSrc (src : String) (origin : Option String) (mode : BuildMode) : String :=
  match origin with
  | none => "//wsrv.nl?url=" ++ src
  | some o =>
    if o = "" then
      -- `!origin` holds for the empty string in JavaScript
      "//wsrv.nl?url=" ++ src
    else if mode = BuildMode.production then
      "//wsrv.nl?url=" ++ (if src.startsWith "/" then o ++ src else o ++ "/" ++ src)
    else
      src

/-- The candidate string built for one breakpoint by `createSrcSet`
(line 147): `` `${trueSrc}?w=${width}&h=${height} ${width}w` ``. -/
def candidate (t : String) (s : Size) : String :=
  t ++ "?w=" ++ toString s.width ++ "&h=" ++ toString s.height ++ " "
    ++ toString s.width ++ "w"

/-- `createSrcSet` from `src/unnamed/part_000`, lines 134–149: resolve the
source through `trueSrc`, then map every breakpoint to its candidate and
join with `", "`. -/
def createSrcSet (src : String) (sizes : List Size) (origin : Option String)
    (mode : BuildMode) : String :=
  String.intercalate ", " (sizes.map (candidate (trueSrc src origin mode)))

/-- The clause built for one breakpoint by `getWidths` (line 132):
`` `(max-width: ${width}px) ${width}px` ``. -/
def sizeClause (s : Size) : String :=
  "(max-width: " ++ toString s.width ++ "px) " ++ toString s.width ++ "px"

/-- `getWidths` from `src/unnamed/part_000`, lines 131–132: map every
breakpoint to its media clause and join with `", "`. -/
def getWidths (sizes : List Size) : String :=
  String.intercalate ", " (sizes.map sizeClause)

/-- The accumulator loop inside `handleResize` (lines 105–109):

```js
for (const size of filtered) {
  if (!currSize || size.width > currSize.width) { currSize = size; }
}
```

Stated generically over the element type with an explicit width accessor so
the same loop can also be run over index-tagged elements; `selectBreakpoint`
instantiates it at `Size.width` exactly as the source does. -/
def selLoop {α : Type} (w : α → Nat) : Option α → List α → Option α
  | curr, [] => curr
  | none, s :: rest => selLoop w (some s) rest
  | some c, s :: rest =>
    if w s > w c then selLoop w (some s) rest else selLoop w (some c) rest

/-- `handleResize`'s selection (`src/unnamed/part_000`, lines 101–112),
under the spec's name `selectBreakpoint`: filter the catalog to widths
`≤ viewportWidth`, then run the loop. -/
def selectBreakpoint (sizes : List Size) (viewportWidth : Nat) : Option Size :=
  selLoop Size.width none (sizes.filter (fun s => s.width ≤ viewportWidth))

/-- The position (index into the catalog) selected by `selectBreakpoint`:
the same filter-and-scan run over the index-tagged catalog, keeping the
index of the chosen entry. -/
def selectIdx (sizes : List Size) (viewportWidth : Nat) : Option Nat :=
  (selLoop (fun p : Nat × Size => p.2.width) none
    ((sizes.enum).filter (fun p => p.2.width ≤ viewportWidth))).map Prod.fst

/-- The document-level hint registry: the `<link>` elements the preload
effect of `Image` (`src/unnamed/part_000`, lines 72–99) queries and
appends to `document.head`, restricted to the attributes that effect
reads and writes. `preconnects` holds the `href` of each preconnect link;
`preloads` holds the `(imageSrcset, imageSizes)` pair of each preload
link. -/
structure HintRegistry where
  preconnects : List String
  preloads : List (String × String)
deriving DecidableEq, Repr

/-- A head with no hint links. -/
def emptyRegistry : HintRegistry := ⟨[], []⟩

/-- The preconnect half of the effect (lines 75–84):
`head.querySelector('link[href="//wsrv.nl"]')`; if absent, append a link
with that href. -/
def ensurePreconnect (host : String) (reg : HintRegistry) : HintRegistry :=
  if reg.preconnects.any (fun h => h = host) then reg
  else { reg with preconnects := reg.preconnects ++ [host] }

/-- The preload half of the effect (lines 86–98):
`head.querySelector('link[as="image"][imageSrcset=…][imageSizes=…]')`;
if absent, append a link carrying that `(imageSrcset, imageSizes)` pair. -/
def ensurePreload (srcSet sizeSet : String) (reg : HintRegistry) : HintRegistry :=
  if reg.preloads.any (fun e => e = (srcSet, sizeSet)) then reg
  else { reg with preloads := reg.preloads ++ [(srcSet, sizeSet)] }

/-! ### Theorems -/

/-- C3: with no explicit origin supplied, resolution proxy-wraps in every
build mode, producing `"//wsrv.nl?url="` followed by the path unmodified. -/
theorem trueSrc_no_origin (src : String) (mode : BuildMode) :
    trueSrc src none mode = "//wsrv.nl?url=" ++ src := rfl

/-- C2 counterexample: the claim quantifies over every explicit origin, but
with the explicitly supplied origin `""` the code takes the falsy-origin
branch and proxy-wraps even in development instead of returning the path
unmodified. -/
theorem trueSrc_empty_origin_dev_wraps :
    trueSrc "a.jpg" (some "") BuildMode.development = "//wsrv.nl?url=a.jpg" ∧
    trueSrc "a.jpg" (some "") BuildMode.development ≠ "a.jpg" := by
  constructor
  · rfl
  · intro h
    exact absurd h (by decide)

/-- C2 (amended to non-empty origins): for every non-empty path and every
non-empty explicit origin, resolution proxy-wraps only in production:
development returns the path unmodified, and production concatenates origin
and path — inserting exactly one `/` separator when the path does not
already start with `/` — and prepends `"//wsrv.nl?url="`. -/
theorem trueSrc_with_origin (src o : String) (_hs : src ≠ "") (ho : o ≠ "") :
    trueSrc src (some o) BuildMode.development = src ∧
    (src.startsWith "/" = true →
      trueSrc src (some o) BuildMode.production = "//wsrv.nl?url=" ++ o ++ src) ∧
    (src.startsWith "/" = false →
      trueSrc src (some o) BuildMode.production
        = "//wsrv.nl?url=" ++ o ++ "/" ++ src) := by
  refine ⟨?_, ?_, ?_⟩
  · simp [trueSrc, ho]
  · intro hsw
    simp [trueSrc, ho, hsw, String.append_assoc]
  · intro hsw
    simp [trueSrc, ho, hsw, String.append_assoc]

/-- Witness for `trueSrc_with_origin` at path `"a.jpg"`, origin
`"https://site"`. -/
theorem trueSrc_with_origin_witness :
    trueSrc "a.jpg" (some "https://site") BuildMode.development = "a.jpg" ∧
    (String.startsWith "a.jpg" "/" = true →
      trueSrc "a.jpg" (some "https://site") BuildMode.production
        = "//wsrv.nl?url=" ++ "https://site" ++ "a.jpg") ∧
    (String.startsWith "a.jpg" "/" = false →
      trueSrc "a.jpg" (some "https://site") BuildMode.production
        = "//wsrv.nl?url=" ++ "https://site" ++ "/" ++ "a.jpg") :=
  trueSrc_with_origin "a.jpg" "https://site" (by decide) (by decide)

/-- C7 counterexample: building a descriptor from the empty catalog does not
fail — both builders return the empty string, so the code produces a
(possibly empty) descriptor string rather than an `InvalidCatalog` error. -/
theorem empty_catalog_yields_empty_strings :
    getWidths [] = "" ∧
    createSrcSet "img.jpg" [] none BuildMode.production = "" := ⟨rfl, rfl⟩

/-- C7 (amended): building a descriptor from an empty catalog raises no
error; both descriptor builders silently produce the empty string, in
every build mode and for every source and origin. -/
theorem empty_catalog_descriptors (src : String) (origin : Option String)
    (mode : BuildMode) :
    getWidths [] = "" ∧ createSrcSet src [] origin mode = "" := ⟨rfl, rfl⟩

/-- C8 counterexample: resolving the empty path does not fail — with no
origin it returns the bare proxy prefix, a URL string, rather than an
`InvalidReference` error, and the srcset is built from it. -/
theorem empty_path_resolves :
    trueSrc "" none BuildMode.production = "//wsrv.nl?url=" ∧
    createSrcSet "" [⟨320, 320⟩] none BuildMode.production
      = "//wsrv.nl?url=?w=320&h=320 320w" := ⟨rfl, rfl⟩

/-- C8 (amended): resolving a reference whose path is the empty string
raises no error; with no origin it returns exactly the proxy prefix
`"//wsrv.nl?url="` with nothing appended, in every build mode. -/
theorem trueSrc_empty_path (mode : BuildMode) :
    trueSrc "" none mode = "//wsrv.nl?url=" := rfl

/-- C5 (code bug): at a concrete proxied candidate the code joins the size
parameters to the base `"//wsrv.nl?url={target}"` with `?`, not `&`,
producing a second `?` in the URL — the wire contract of the wsrv.nl proxy
(and the spec) requires `"&w={width}&h={height}"`. -/
theorem srcset_joins_params_with_question_mark :
    createSrcSet "https://x/y.jpg" [⟨320, 320⟩] none BuildMode.production
      = "//wsrv.nl?url=https://x/y.jpg?w=320&h=320 320w" := rfl

/-- C4: for every non-empty catalog, the srcset string is exactly
`len(C)` candidates joined by `", "` in catalog order, the i-th candidate
being `"{U}?w={width}&h={height} {width}w"` for the i-th breakpoint, where
`U` is the resolved URL. -/
theorem createSrcSet_candidates (src : String) (origin : Option String)
    (mode : BuildMode) (c : List Size) (_hc : c ≠ []) :
    ∃ cands : List String,
      createSrcSet src c origin mode = String.intercalate ", " cands ∧
      cands.length = c.length ∧
      ∀ i : Nat, cands.get? i
        = (c.get? i).map (fun s =>
            trueSrc src origin mode ++ "?w=" ++ toString s.width
              ++ "&h=" ++ toString s.height ++ " " ++ toString s.width ++ "w") := by
  refine ⟨c.map (candidate (trueSrc src origin mode)), rfl, c.length_map _, ?_⟩
  intro i
  simp only [List.get?_eq_getElem?, List.getElem?_map]
  rfl

/-- Witness for `createSrcSet_candidates` at a concrete two-entry catalog. -/
theorem createSrcSet_candidates_witness :
    ∃ cands : List String,
      createSrcSet "https://x/y.jpg" [⟨320, 568⟩, ⟨768, 1024⟩] none
          BuildMode.production = String.intercalate ", " cands ∧
      cands.length = ([⟨320, 568⟩, ⟨768, 1024⟩] : List Size).length ∧
      ∀ i : Nat, cands.get? i
        = (([⟨320, 568⟩, ⟨768, 1024⟩] : List Size).get? i).map (fun s =>
            trueSrc "https://x/y.jpg" none BuildMode.production ++ "?w="
              ++ toString s.width ++ "&h=" ++ toString s.height ++ " "
              ++ toString s.width ++ "w") :=
  createSrcSet_candidates "https://x/y.jpg" none BuildMode.production
    [⟨320, 568⟩, ⟨768, 1024⟩] (by decide)

/-- C6: for every non-empty catalog, the sizes string is exactly `len(C)`
clauses joined by `", "` in caller order — no deduplication, no sorting —
the i-th clause being `"(max-width: {width}px) {width}px"` for the i-th
breakpoint, repeating that breakpoint's width twice. -/
theorem getWidths_clauses (c : List Size) (_hc : c ≠ []) :
    ∃ clauses : List String,
      getWidths c = String.intercalate ", " clauses ∧
      clauses.length = c.length ∧
      ∀ i : Nat, clauses.get? i
        = (c.get? i).map (fun s =>
            "(max-width: " ++ toString s.width ++ "px) "
              ++ toString s.width ++ "px") := by
  refine ⟨c.map sizeClause, rfl, c.length_map _, ?_⟩
  intro i
  simp only [List.get?_eq_getElem?, List.getElem?_map]
  rfl

/-- Witness for `getWidths_clauses` at a concrete two-entry catalog. -/
theorem getWidths_clauses_witness :
    ∃ clauses : List String,
      getWidths [⟨320, 568⟩, ⟨768, 1024⟩] = String.intercalate ", " clauses ∧
      clauses.length = ([⟨320, 568⟩, ⟨768, 1024⟩] : List Size).length ∧
      ∀ i : Nat, clauses.get? i
        = (([⟨320, 568⟩, ⟨768, 1024⟩] : List Size).get? i).map (fun s =>
            "(max-width: " ++ toString s.width ++ "px) "
              ++ toString s.width ++ "px") :=
  getWidths_clauses [⟨320, 568⟩, ⟨768, 1024⟩] (by decide)

/-- Running the loop with accumulator `a` over `l` picks the first
element of `a :: l` with maximal width: everything strictly before the
result is strictly narrower, everything after is no wider. -/
theorem selLoop_split {α : Type} (w : α → Nat) :
    ∀ (l : List α) (a : α), ∃ s l1 l2,
      selLoop w (some a) l = some s ∧ a :: l = l1 ++ s :: l2 ∧
      (∀ t ∈ l1, w t < w s) ∧ (∀ t ∈ l2, w t ≤ w s)
  | [], a => ⟨a, [], [], rfl, rfl, by simp, by simp⟩
  | b :: l, a => by
    by_cases hb : w b > w a
    · obtain ⟨s, l1, l2, hres, hsplit, h1, h2⟩ := selLoop_split w l b
      have hbs : w b ≤ w s := by
        cases l1 with
        | nil =>
          simp only [List.nil_append, List.cons.injEq] at hsplit
          exact hsplit.1 ▸ le_refl _
        | cons x l1' =>
          simp only [List.cons_append, List.cons.injEq] at hsplit
          exact le_of_lt (hsplit.1 ▸ h1 x (List.mem_cons_self x l1'))
      refine ⟨s, a :: l1, l2, ?_, ?_, ?_, h2⟩
      · simpa [selLoop, hb] using hres
      · rw [List.cons_append, ← hsplit]
      · intro t ht
        rcases List.mem_cons.mp ht with rfl | ht'
        · exact lt_of_lt_of_le hb hbs
        · exact h1 t ht'
    · obtain ⟨s, l1, l2, hres, hsplit, h1, h2⟩ := selLoop_split w l a
      have hba : w b ≤ w a := le_of_not_lt hb
      cases l1 with
      | nil =>
        simp only [List.nil_append, List.cons.injEq] at hsplit
        obtain ⟨ha, hl⟩ := hsplit
        refine ⟨s, [], b :: l2, ?_, ?_, by simp, ?_⟩
        · simpa [selLoop, hb] using hres
        · rw [List.nil_append, ← ha, ← hl]
        · intro t ht
          rcases List.mem_cons.mp ht with rfl | ht'
          · exact ha ▸ hba
          · exact h2 t ht'
      | cons x l1' =>
        simp only [List.cons_append, List.cons.injEq] at hsplit
        obtain ⟨rfl, rfl⟩ := hsplit
        have has : w a < w s := h1 a (List.mem_cons_self a l1')
        refine ⟨s, a :: b :: l1', l2, ?_, by simp, ?_, h2⟩
        · simpa [selLoop, hb] using hres
        · intro t ht
          rcases List.mem_cons.mp ht with rfl | ht'
          · exact has
          · rcases List.mem_cons.mp ht' with rfl | ht''
            · exact lt_of_le_of_lt hba has
            · exact h1 t (List.mem_cons_of_mem a ht'')

/-- C1: `selectBreakpoint` returns `none` exactly when no breakpoint's
width is ≤ the viewport width; otherwise it returns a qualifying
breakpoint of maximum width, and among equal maxima the first in catalog
order: the surviving (order-preserving) filter of the catalog splits as
`l1 ++ s :: l2` with everything before `s` strictly narrower and
everything after no wider. -/
theorem selectBreakpoint_first_max (c : List Size) (v : Nat) :
    (selectBreakpoint c v = none ↔ c.filter (fun s => s.width ≤ v) = []) ∧
    (∀ s, selectBreakpoint c v = some s →
      ∃ l1 l2, c.filter (fun s => s.width ≤ v) = l1 ++ s :: l2 ∧
        (∀ t ∈ l1, t.width < s.width) ∧ (∀ t ∈ l2, t.width ≤ s.width)) := by
  cases hL : c.filter (fun s => s.width ≤ v) with
  | nil =>
    constructor
    · simp [selectBreakpoint, hL, selLoop]
    · intro s hs
      rw [selectBreakpoint, hL] at hs
      exact absurd hs (by simp [selLoop])
  | cons b l =>
    obtain ⟨s, l1, l2, hres, hsplit, h1, h2⟩ := selLoop_split Size.width l b
    have hsel : selectBreakpoint c v = some s := by
      rw [selectBreakpoint, hL]
      simpa [selLoop] using hres
    constructor
    · rw [hsel]; simp
    · intro t ht
      rw [hsel, Option.some.injEq] at ht
      subst ht
      exact ⟨l1, l2, hsplit ▸ hL ▸ rfl, h1, h2⟩

/-- Witness for `selectBreakpoint_first_max`: at catalog
`[320, 768, 1024]` (square) and viewport width 800 the selection is the
768 entry, the largest width not exceeding 800. -/
theorem selectBreakpoint_first_max_witness :
    ∃ l1 l2,
      ([⟨320, 320⟩, ⟨768, 768⟩, ⟨1024, 1024⟩] : List Size).filter
          (fun s => s.width ≤ 800) = l1 ++ (⟨768, 768⟩ : Size) :: l2 ∧
      (∀ t ∈ l1, t.width < (⟨768, 768⟩ : Size).width) ∧
      (∀ t ∈ l2, t.width ≤ (⟨768, 768⟩ : Size).width) :=
  (selectBreakpoint_first_max [⟨320, 320⟩, ⟨768, 768⟩, ⟨1024, 1024⟩] 800).2
    ⟨768, 768⟩ rfl

/-- The loop commutes with mapping the elements, as long as the map
preserves widths. -/
theorem selLoop_map {α β : Type} (w : α → Nat) (w2 : β → Nat) (f : α → β)
    (hw : ∀ a, w2 (f a) = w a) :
    ∀ (l : List α) (curr : Option α),
      selLoop w2 (curr.map f) (l.map f) = (selLoop w curr l).map f
  | [], curr => by cases curr <;> rfl
  | b :: l, curr => by
    cases curr with
    | none =>
      simpa only [Option.map, selLoop, List.map_cons] using
        selLoop_map w w2 f hw l (some b)
    | some a =>
      simp only [List.map_cons, selLoop, Option.map, hw]
      by_cases h : w b > w a
      · simpa only [if_pos h, Option.map] using selLoop_map w w2 f hw l (some b)
      · simpa only [if_neg h, Option.map] using selLoop_map w w2 f hw l (some a)

/-- The loop's result is either one of the scanned elements or the initial
accumulator. -/
theorem selLoop_mem {α : Type} (w : α → Nat) :
    ∀ (l : List α) (curr : Option α) (x : α),
      selLoop w curr l = some x → x ∈ l ∨ curr = some x
  | [], curr, x => by
    intro h
    refine Or.inr ?_
    rw [← h]
    cases curr <;> rfl
  | b :: l, curr, x => by
    intro h
    cases curr with
    | none =>
      rcases selLoop_mem w l (some b) x h with h' | h'
      · exact Or.inl (List.mem_cons_of_mem b h')
      · rw [Option.some.injEq] at h'
        exact Or.inl (List.mem_cons.mpr (Or.inl h'.symm))
    | some a =>
      rw [selLoop] at h
      by_cases hba : w b > w a
      · rw [if_pos hba] at h
        rcases selLoop_mem w l (some b) x h with h' | h'
        · exact Or.inl (List.mem_cons_of_mem b h')
        · rw [Option.some.injEq] at h'
          exact Or.inl (List.mem_cons.mpr (Or.inl h'.symm))
      · rw [if_neg hba] at h
        rcases selLoop_mem w l (some a) x h with h' | h'
        · exact Or.inl (List.mem_cons_of_mem b h')
        · exact Or.inr h'

/-- Filtering by width then dropping to the second component agrees with
dropping first and filtering, for index-tagged breakpoints. -/
theorem filter_width_map_snd (v : Nat) :
    ∀ l : List (Nat × Size),
      (l.filter (fun p => p.2.width ≤ v)).map Prod.snd
        = (l.map Prod.snd).filter (fun s => s.width ≤ v)
  | [] => rfl
  | p :: l => by
    by_cases h : p.2.width ≤ v <;>
      simp [List.filter_cons, h, filter_width_map_snd v l]

/-- `selectBreakpoint` returns exactly the catalog entry at the position
computed by `selectIdx`. -/
theorem selectBreakpoint_eq_idx (c : List Size) (v : Nat) :
    selectBreakpoint c v = (selectIdx c v).bind (fun i => c.get? i) := by
  have hmap := selLoop_map (fun p : Nat × Size => p.2.width) Size.width Prod.snd
    (fun _ => rfl) (c.enum.filter (fun p => p.2.width ≤ v)) none
  rw [filter_width_map_snd, List.enum_map_snd] at hmap
  cases hp : selLoop (fun p : Nat × Size => p.2.width) none
      (c.enum.filter (fun p => p.2.width ≤ v)) with
  | none =>
    rw [hp, Option.map_none'] at hmap
    simp only [selectIdx, hp, Option.map_none', Option.none_bind]
    simpa only [selectBreakpoint] using hmap
  | some p =>
    have hmem : p ∈ c.enum :=
      List.mem_of_mem_filter
        ((selLoop_mem _ _ none p hp).resolve_right (by simp))
    have hget : c.get? p.1 = some p.2 := by
      rw [List.get?_eq_getElem?]
      exact List.mem_enum_iff_getElem?.mp hmem
    rw [hp, Option.map_some'] at hmap
    simp only [selectIdx, hp, Option.map_some', Option.some_bind, hget]
    simpa only [selectBreakpoint] using hmap

/-- Filtering index-tagged breakpoints by width then dropping heights
agrees with dropping heights first and filtering the index-tagged width
list. -/
theorem filter_width_map_widths (v : Nat) :
    ∀ l : List (Nat × Size),
      (l.filter (fun p => p.2.width ≤ v)).map (Prod.map id Size.width)
        = (l.map (Prod.map id Size.width)).filter (fun q => q.2 ≤ v)
  | [] => rfl
  | p :: l => by
    by_cases h : p.2.width ≤ v <;>
      simp [List.filter_cons, h, Prod.map, filter_width_map_widths v l]

/-- The selected position is a function of the catalog's width list
alone. -/
theorem selectIdx_eq_width (c : List Size) (v : Nat) :
    selectIdx c v = (selLoop (fun q : Nat × Nat => q.2) none
      (((c.map Size.width).enum).filter (fun q => q.2 ≤ v))).map Prod.fst := by
  have hsl := selLoop_map (fun p : Nat × Size => p.2.width)
    (fun q : Nat × Nat => q.2) (Prod.map id Size.width) (fun _ => rfl)
    (c.enum.filter (fun p => p.2.width ≤ v)) none
  rw [Option.map_none', filter_width_map_widths, ← List.enum_map] at hsl
  rw [selectIdx, hsl]
  cases selLoop (fun p : Nat × Size => p.2.width) none
      (c.enum.filter (fun p => p.2.width ≤ v)) <;> rfl

/-- C10: breakpoint selection depends only on the width components of the
catalog. For any two catalogs with identical width sequences and any
viewport width, the selected catalog position is the same — and
`selectBreakpoint` returns exactly the entry at that position, so heights
never influence which breakpoint is chosen. -/
theorem selection_ignores_heights (c1 c2 : List Size) (v : Nat)
    (h : c1.map Size.width = c2.map Size.width) :
    selectIdx c1 v = selectIdx c2 v ∧
    selectBreakpoint c1 v = (selectIdx c1 v).bind (fun i => c1.get? i) ∧
    selectBreakpoint c2 v = (selectIdx c2 v).bind (fun i => c2.get? i) := by
  refine ⟨?_, selectBreakpoint_eq_idx c1 v, selectBreakpoint_eq_idx c2 v⟩
  rw [selectIdx_eq_width, selectIdx_eq_width, h]

/-- Witness for `selection_ignores_heights`: two one-entry catalogs with
width 320 but different heights select the same position. -/
theorem selection_ignores_heights_witness :
    selectIdx [(⟨320, 100⟩ : Size)] 400 = selectIdx [(⟨320, 999⟩ : Size)] 400 ∧
    selectBreakpoint [(⟨320, 100⟩ : Size)] 400
      = (selectIdx [(⟨320, 100⟩ : Size)] 400).bind
          (fun i => [(⟨320, 100⟩ : Size)].get? i) ∧
    selectBreakpoint [(⟨320, 999⟩ : Size)] 400
      = (selectIdx [(⟨320, 999⟩ : Size)] 400).bind
          (fun i => [(⟨320, 999⟩ : Size)].get? i) :=
  selection_ignores_heights [⟨320, 100⟩] [⟨320, 999⟩] 400 rfl

/-- C9: the hint effect is idempotent on the registry. `ensurePreload` is
idempotent for any starting registry; from an empty head, two calls with
the identical `(srcSet, sizeSet)` pair leave exactly one preload entry
while a second call with a distinct srcset leaves two entries; and
`ensurePreconnect` never creates a second preconnect entry for the same
host. -/
theorem hint_registry_idempotent (srcSet sizeSet srcSet2 host : String)
    (reg : HintRegistry) (hne : srcSet2 ≠ srcSet) :
    ensurePreload srcSet sizeSet (ensurePreload srcSet sizeSet reg)
      = ensurePreload srcSet sizeSet reg ∧
    (ensurePreload srcSet sizeSet
        (ensurePreload srcSet sizeSet emptyRegistry)).preloads
      = [(srcSet, sizeSet)] ∧
    (ensurePreload srcSet2 sizeSet
        (ensurePreload srcSet sizeSet emptyRegistry)).preloads
      = [(srcSet, sizeSet), (srcSet2, sizeSet)] ∧
    ensurePreconnect host (ensurePreconnect host reg)
      = ensurePreconnect host reg := by
  refine ⟨?_, ?_, ?_, ?_⟩
  · by_cases h : reg.preloads.any (fun e => e = (srcSet, sizeSet))
    · simp [ensurePreload, h]
    · simp [ensurePreload, h, List.any_append]
  · simp [ensurePreload, emptyRegistry]
  · simp [ensurePreload, emptyRegistry, Prod.ext_iff, hne, hne.symm]
  · by_cases h : reg.preconnects.any (fun x => x = host)
    · simp [ensurePreconnect, h]
    · simp [ensurePreconnect, h, List.any_append]

/-- Witness for `hint_registry_idempotent` at concrete descriptor strings
and host. -/
theorem hint_registry_idempotent_witness :
    ensurePreload "srcA" "sz" (ensurePreload "srcA" "sz" emptyRegistry)
      = ensurePreload "srcA" "sz" emptyRegistry ∧
    (ensurePreload "srcA" "sz"
        (ensurePreload "srcA" "sz" emptyRegistry)).preloads
      = [("srcA", "sz")] ∧
    (ensurePreload "srcB" "sz"
        (ensurePreload "srcA" "sz" emptyRegistry)).preloads
      = [("srcA", "sz"), ("srcB", "sz")] ∧
    ensurePreconnect "//wsrv.nl" (ensurePreconnect "//wsrv.nl" emptyRegistry)
      = ensurePreconnect "//wsrv.nl" emptyRegistry :=
  hint_registry_idempotent "srcA" "sz" "srcB" "//wsrv.nl" emptyRegistry
    (by decide)

end EzImage
